import Mathlib

/-!
Shallow embedding of the transaction subsystem of the iota.go repository
(src/transaction.go and src/transaction_essence.go), together with the parts
of the surrounding data model (outputs, feature blocks, unlock blocks,
addresses) that those two files consume.  The data model itself lives outside
the two given source files, so it is modelled from the specification's data
model section; every function of the two source files is translated directly
from the Go code.

Machine integers are modelled as `Nat` with explicit wrap-around (`% 2 ^ 64`,
`% 2 ^ 16`) exactly where the Go code performs unchecked fixed-width
arithmetic, and with explicit overflow checks where the Go code performs them
(the u256 native-token sums).  Go maps are modelled as association lists; all
map iterations in the translated code are order-insensitive in the observed
results (sums are commutative and every error produced inside one loop has a
single error kind), so the list order stands in for Go's unspecified map
iteration order.  Go `panic`s (unchecked type assertions and out-of-bounds
indexing) are modelled as a dedicated error value, so that a panicking
execution is observably distinct from a returned error.
-/

namespace Iota

/-- 64-bit wrap-around addition, as Go `uint64` addition (`+=`) in
`TxSemanticDeposit`. -/
def add64 (a b : Nat) : Nat := (a + b) % 2 ^ 64

/-- Modelled from the spec: the closed family of addresses (`Ed25519`,
`Alias(AliasId)`, `NFT(NFTId)`); the address code is outside the two given
source files.  Ids and keys are abstracted to `Nat`; address equality is
structural, as the spec requires. -/
inductive Address where
  | ed25519 (key : Nat)
  | aliasAddr (id : Nat)
  | nftAddr (id : Nat)
  deriving DecidableEq, Repr

/-- `ChainConstrainedAddress` sub-family: `Alias` and `NFT` addresses. -/
def Address.isChainConstrained : Address → Bool
  | .aliasAddr _ => true
  | .nftAddr _ => true
  | .ed25519 _ => false

/-- `DirectUnlockableAddress`: the `Ed25519` address kind. -/
def Address.isDirectUnlockable : Address → Bool
  | .ed25519 _ => true
  | _ => false

/-- Modelled from the spec: an `OutputId` is the pair
(TransactionId, u16 output index); the transaction id is abstracted to
`Nat`. -/
structure OutputID where
  txID : Nat
  index : Nat
  deriving DecidableEq, Repr

/-- Modelled from the spec: a native token id (38 bytes) whose first
26 bytes are the `FoundryID`; split into the foundry part and the rest. -/
structure TokenID where
  foundryID : Nat
  tokenTag : Nat
  deriving DecidableEq, Repr

/-- Modelled from the spec: a `NativeToken` is a (TokenId, u256 amount)
pair. -/
structure NativeToken where
  id : TokenID
  amount : Nat
  deriving DecidableEq, Repr

/-- Modelled from the spec: the closed family of feature blocks, each kind
appearing at most once per output. -/
inductive FeatureBlock where
  | sender (address : Address)
  | issuer (address : Address)
  | dustDepositReturn (amount : Nat)
  | timelockMilestoneIndex (milestoneIndex : Nat)
  | timelockUnix (unixTime : Nat)
  | expirationMilestoneIndex (milestoneIndex : Nat)
  | expirationUnix (unixTime : Nat)
  | metadata (data : List Nat)
  | indexationBlock (tag : List Nat)
  deriving DecidableEq, Repr

/-- The type tag of a feature block (its kind), in the canonical ascending
order of the spec's closed kind set. -/
def FeatureBlock.kind : FeatureBlock → Nat
  | .sender _ => 0
  | .issuer _ => 1
  | .dustDepositReturn _ => 2
  | .timelockMilestoneIndex _ => 3
  | .timelockUnix _ => 4
  | .expirationMilestoneIndex _ => 5
  | .expirationUnix _ => 6
  | .metadata _ => 7
  | .indexationBlock _ => 8

/-- Modelled from the spec: the state carried by an `AliasOutput`
(`MultiIdentOutput`, `ChainConstrainedOutput`). -/
structure AliasData where
  amount : Nat
  nativeTokens : List NativeToken
  aliasID : Nat
  stateController : Address
  governanceController : Address
  stateIndex : Nat
  stateMetadata : List Nat
  foundryCounter : Nat
  featureBlocks : List FeatureBlock
  deriving DecidableEq, Repr

/-- Modelled from the spec: the closed family of output variants
(`Simple`, `Extended`, `Alias`, `Foundry`, `NFT`). -/
inductive Output where
  | simple (address : Address) (amount : Nat)
  | extended (address : Address) (amount : Nat)
      (nativeTokens : List NativeToken) (featureBlocks : List FeatureBlock)
  | aliasOut (data : AliasData)
  | foundry (address : Address) (amount : Nat)
      (nativeTokens : List NativeToken) (serialNumber : Nat) (tokenTag : Nat)
      (circulatingSupply : Nat) (maximumSupply : Nat)
      (featureBlocks : List FeatureBlock)
  | nft (address : Address) (amount : Nat)
      (nativeTokens : List NativeToken) (nftID : Nat)
      (featureBlocks : List FeatureBlock)
  deriving DecidableEq, Repr

/-- `Deposit()` accessor: the u64 deposit carried by an output. -/
def Output.deposit : Output → Nat
  | .simple _ amount => amount
  | .extended _ amount _ _ => amount
  | .aliasOut a => a.amount
  | .foundry _ amount _ _ _ _ _ _ => amount
  | .nft _ amount _ _ _ => amount

/-- The `FeatureBlockOutput` capability: `some` for the variants that carry
feature blocks, `none` for `Simple` (the Go type assertion fails there). -/
def Output.featureBlockList : Output → Option (List FeatureBlock)
  | .simple _ _ => none
  | .extended _ _ _ fbs => some fbs
  | .aliasOut a => some a.featureBlocks
  | .foundry _ _ _ _ _ _ _ fbs => some fbs
  | .nft _ _ _ _ fbs => some fbs

/-- The `NativeTokenOutput` capability: `some` for the variants that carry
native tokens, `none` for `Simple`. -/
def Output.nativeTokenList : Output → Option (List NativeToken)
  | .simple _ _ => none
  | .extended _ _ nts _ => some nts
  | .aliasOut a => some a.nativeTokens
  | .foundry _ _ nts _ _ _ _ _ => some nts
  | .nft _ _ nts _ _ => some nts

/-- Whether the output is a `FoundryOutput` (`OutputsByType[OutputFoundry]`
would be non-nil exactly when some output satisfies this). -/
def Output.isFoundry : Output → Bool
  | .foundry _ _ _ _ _ _ _ _ => true
  | _ => false

/-- The `Chain()` capability composed with `Addressable()` and
`ToAddress()`: the address of the output's chain when the chain is
addressable (`Alias` and `NFT` chains are, `Foundry` chains are not). -/
def Output.chainAddress : Output → Option Address
  | .aliasOut a => some (.aliasAddr a.aliasID)
  | .nft _ _ _ nftID _ => some (.nftAddr nftID)
  | _ => none

/-- Error values surfaced by the semantic-validation code of
src/transaction.go.  `panicked` models a Go `panic` (failed unchecked type
assertion or out-of-bounds index); `signatureFailed` models the error
returned by the caller-supplied `Unlock` capability. -/
inductive SemErr where
  | missingUTXO
  | inputOutputSumMismatch (inSum outSum : Nat)
  | returnAmountNotFulfilled
  | nativeTokenSumUnbalanced
  | nativeTokenSumOverflow
  | invalidInputUnlock
  | signatureFailed
  | senderFeatureBlockNotUnlocked
  | duplicateFeatureBlock
  | panicked
  deriving DecidableEq, Repr

/-- Association-list lookup, standing in for Go map indexing. -/
def alookup {α β : Type} [DecidableEq α] : List (α × β) → α → Option β
  | [], _ => none
  | (k', v) :: rest, k => if k' = k then some v else alookup rest k

/-- Go map assignment `m[k] = v`: replace the binding if present, add it
otherwise. -/
def ainsert {α : Type} [DecidableEq α] : List (α × Nat) → α → Nat → List (α × Nat)
  | [], k, v => [(k, v)]
  | (k', v') :: rest, k, v =>
      if k' = k then (k, v) :: rest else (k', v') :: ainsert rest k v

/-- Go `m[k] += v` on a `map[...]uint64`: wrap-around addition into the
binding, creating it from zero when absent. -/
def abump : List (Address × Nat) → Address → Nat → List (Address × Nat)
  | [], k, v => [(k, add64 0 v)]
  | (k', v') :: rest, k, v =>
      if k' = k then (k', add64 v' v) :: rest else (k', v') :: abump rest k v

/-- `FeatureBlocks().Set()`: builds the kind-keyed set, failing when two
blocks share a kind (each kind appears at most once per output). -/
def featureBlockSet (blocks : List FeatureBlock) : Except SemErr (List FeatureBlock) :=
  if (blocks.map FeatureBlock.kind).Nodup then .ok blocks else .error .duplicateFeatureBlock

/-- Lookup of the block of a given kind in a feature-block set
(`featBlockSet[kind]`). -/
def findFeatureBlock (blocks : List FeatureBlock) (k : Nat) : Option FeatureBlock :=
  blocks.find? (fun b => b.kind == k)

/-- `featBlockSet[FeatureBlockSender].(*SenderFeatureBlock).Address`,
as an `Option`: `none` when no sender block is present. -/
def findSenderAddress (blocks : List FeatureBlock) : Option Address :=
  match findFeatureBlock blocks 0 with
  | some (.sender a) => some a
  | _ => none

/-- The amount of the `DustDepositReturnFeatureBlock`, when present. -/
def findDustDepositReturn (blocks : List FeatureBlock) : Option Nat :=
  match findFeatureBlock blocks 2 with
  | some (.dustDepositReturn amount) => some amount
  | _ => none

/-- The index of the `ExpirationMilestoneIndexFeatureBlock`, when present. -/
def findExpMsIndex (blocks : List FeatureBlock) : Option Nat :=
  match findFeatureBlock blocks 5 with
  | some (.expirationMilestoneIndex idx) => some idx
  | _ => none

/-- The timestamp of the `ExpirationUnixFeatureBlock`, when present. -/
def findExpUnix (blocks : List FeatureBlock) : Option Nat :=
  match findFeatureBlock blocks 6 with
  | some (.expirationUnix ts) => some ts
  | _ => none

/-- Modelled from the spec: the unlock-block variants (`Signature`,
`Reference`, `Alias`, `NFT`); signatures are abstracted to a public key and
a signature value. -/
inductive UnlockBlock where
  | signature (pubKey : Nat) (sig : Nat)
  | reference (ref : Nat)
  | aliasRef (ref : Nat)
  | nftRef (ref : Nat)
  deriving DecidableEq, Repr

/-- Whether the unlock block is a `ReferentialUnlockBlock`. -/
def UnlockBlock.isReferential : UnlockBlock → Bool
  | .signature _ _ => false
  | _ => true

/-- `Chainable()`: alias and NFT unlocks chain, plain references do not. -/
def UnlockBlock.chainable : UnlockBlock → Bool
  | .aliasRef _ => true
  | .nftRef _ => true
  | _ => false

/-- `Ref()` of a referential unlock block (zero for a signature block,
where the Go code never calls it). -/
def UnlockBlock.refIndex : UnlockBlock → Nat
  | .signature _ _ => 0
  | .reference r => r
  | .aliasRef r => r
  | .nftRef r => r

/-- Modelled from the spec: `SourceAllowed` holds when the referential
unlock's kind matches the target address kind (plain references source
direct-unlockable addresses, alias unlocks source alias addresses, NFT
unlocks source NFT addresses). -/
def UnlockBlock.sourceAllowed : UnlockBlock → Address → Bool
  | .reference _, .ed25519 _ => true
  | .aliasRef _, .aliasAddr _ => true
  | .nftRef _, .nftAddr _ => true
  | _, _ => false

/-- Modelled from the spec: the optional payload embedded in an essence;
only the `Indexation` variant is permitted there. -/
inductive Payload where
  | indexation (tag : List Nat) (data : List Nat)
  | otherPayload (ty : Nat) (data : List Nat)
  deriving DecidableEq, Repr

/-- `TransactionEssence` (type 0): inputs (UTXO references), outputs and the
optional payload.  Field names follow the source. -/
structure TransactionEssence where
  Inputs : List OutputID
  Outputs : List Output
  Payload : Option Payload
  deriving DecidableEq, Repr

/-- `Transaction`: essence plus parallel unlock-block array. -/
structure Transaction where
  Essence : TransactionEssence
  UnlockBlocks : List UnlockBlock
  deriving DecidableEq, Repr

/-- `SemValiContextWorkingSet`: the fields of the working set that the
translated semantic-validation functions read.  `OutChains` is keyed by
chain id in the source; alias keys and foundry keys are disjoint by
construction (their byte forms have different lengths), so the map is split
into its alias-keyed part and the set of foundry keys. -/
structure SemValiContextWorkingSet where
  UnlockedIdents : List (Address × Nat)
  InputSet : List (OutputID × Output)
  Tx : Transaction
  EssenceMsgToSign : List Nat
  OutChainsAlias : List (Nat × AliasData)
  OutChainsFoundry : List Nat
  deriving Repr

/-- `SemanticValidationContext`: the confirming milestone data plus the
working set. -/
structure SemanticValidationContext where
  ConfirmingMilestoneIndex : Nat
  ConfirmingMilestoneUnix : Nat
  WorkingSet : SemValiContextWorkingSet
  deriving Repr

/-- The first loop of `TxSemanticDeposit`: accumulate the wrap-around u64
input-side deposit sum over every entry of the `InputSet` map and the
per-identity dust-deposit-return sums.  A missing sender block next to a
dust-deposit-return block is an unchecked type assertion in the source and
panics. -/
def depositInputSide :
    List (OutputID × Output) → Nat → List (Address × Nat) →
      Except SemErr (Nat × List (Address × Nat))
  | [], inSum, retMap => .ok (inSum, retMap)
  | (_, input) :: rest, inSum, retMap =>
    let inSum' := add64 inSum input.deposit
    match input.featureBlockList with
    | none => depositInputSide rest inSum' retMap
    | some blocks =>
      match featureBlockSet blocks with
      | .error e => .error e
      | .ok fbSet =>
        match findDustDepositReturn fbSet with
        | none => depositInputSide rest inSum' retMap
        | some amount =>
          match findSenderAddress fbSet with
          | none => .error .panicked
          | some ident => depositInputSide rest inSum' (abump retMap ident amount)

/-- The second loop of `TxSemanticDeposit`: accumulate the wrap-around u64
output-side deposit sum and the per-identity sums of plain value transfers
(`Simple` outputs, or `Extended` outputs without feature blocks). -/
def depositOutputSide :
    List Output → Nat → List (Address × Nat) → Nat × List (Address × Nat)
  | [], outSum, transfers => (outSum, transfers)
  | output :: rest, outSum, transfers =>
    let d := output.deposit
    let outSum' := add64 outSum d
    match output with
    | .simple address _ => depositOutputSide rest outSum' (abump transfers address d)
    | .extended address _ _ fbs =>
      if 0 < fbs.length then depositOutputSide rest outSum' transfers
      else depositOutputSide rest outSum' (abump transfers address d)
    | _ => depositOutputSide rest outSum' transfers

/-- The final loop of `TxSemanticDeposit`: every aggregated return amount
must be met by the aggregated plain transfers to the same identity; a
missing binding or a too-small sum fails with
`ErrReturnAmountNotFulFilled`. -/
def checkReturns (transfers : List (Address × Nat)) :
    List (Address × Nat) → Except SemErr Unit
  | [] => .ok ()
  | (ident, returnSum) :: rest =>
    match alookup transfers ident with
    | none => .error .returnAmountNotFulfilled
    | some outSum =>
      if outSum < returnSum then .error .returnAmountNotFulfilled
      else checkReturns transfers rest

/-- `TxSemanticDeposit`: balance the u64 deposit sums of the input side
(every `InputSet` entry) and the output side (the transaction's outputs),
then check the dust-deposit-return amounts. -/
def TxSemanticDeposit (svCtx : SemanticValidationContext) : Except SemErr Unit :=
  match depositInputSide svCtx.WorkingSet.InputSet 0 [] with
  | .error e => .error e
  | .ok (inSum, retMap) =>
    let outPair := depositOutputSide svCtx.WorkingSet.Tx.Essence.Outputs 0 []
    if inSum ≠ outPair.1 then .error (.inputOutputSumMismatch inSum outPair.1)
    else checkReturns outPair.2 retMap

/-- The inner loop of `TxSemanticTimelock` over one output's feature
blocks. -/
def timelockBlocksCheck (msIdx msUnix : Nat) : List FeatureBlock → Except SemErr Unit
  | [] => .ok ()
  | .timelockMilestoneIndex idx :: rest =>
    if msIdx < idx then .error .invalidInputUnlock
    else timelockBlocksCheck msIdx msUnix rest
  | .timelockUnix ts :: rest =>
    if msUnix < ts then .error .invalidInputUnlock
    else timelockBlocksCheck msIdx msUnix rest
  | _ :: rest => timelockBlocksCheck msIdx msUnix rest

/-- The outer loop of `TxSemanticTimelock` over every entry of the
`InputSet` map. -/
def timelockInputsCheck (msIdx msUnix : Nat) :
    List (OutputID × Output) → Except SemErr Unit
  | [] => .ok ()
  | (_, input) :: rest =>
    match input.featureBlockList with
    | none => timelockInputsCheck msIdx msUnix rest
    | some blocks =>
      match timelockBlocksCheck msIdx msUnix blocks with
      | .error e => .error e
      | .ok _ => timelockInputsCheck msIdx msUnix rest

/-- `TxSemanticTimelock`: every input with a timelock feature block may only
be consumed when the confirming milestone allows it. -/
def TxSemanticTimelock (svCtx : SemanticValidationContext) : Except SemErr Unit :=
  timelockInputsCheck svCtx.ConfirmingMilestoneIndex svCtx.ConfirmingMilestoneUnix
    svCtx.WorkingSet.InputSet

/-- Add one native-token amount into a token-id-keyed u256 sum map, with
overflow detection (the amounts are u256 and the sum is rejected when it no
longer fits). -/
def tokenBump : List (TokenID × Nat) → TokenID → Nat → Except SemErr (List (TokenID × Nat))
  | [], id, amount =>
    if 2 ^ 256 ≤ amount then .error .nativeTokenSumOverflow else .ok [(id, amount)]
  | (id', v) :: rest, id, amount =>
    if id' = id then
      if 2 ^ 256 ≤ v + amount then .error .nativeTokenSumOverflow
      else .ok ((id', v + amount) :: rest)
    else
      match tokenBump rest id amount with
      | .error e => .error e
      | .ok rest' => .ok ((id', v) :: rest')

/-- Sum the native tokens of one output into the running sum map. -/
def sumTokenList (m : List (TokenID × Nat)) :
    List NativeToken → Except SemErr (List (TokenID × Nat))
  | [] => .ok m
  | nt :: rest =>
    match tokenBump m nt.id nt.amount with
    | .error e => .error e
    | .ok m' => sumTokenList m' rest

/-- `NativeTokenOutputs().Sum()`: the per-token-id u256 sums over the
native tokens of every native-token-capable output of the slice, with
overflow detection. -/
def nativeTokenOutputsSum (outs : List Output) : Except SemErr (List (TokenID × Nat)) :=
  match outs with
  | [] => .ok []
  | out :: rest =>
    match nativeTokenOutputsSum rest with
    | .error e => .error e
    | .ok m =>
      match out.nativeTokenList with
      | none => .ok m
      | some nts => sumTokenList m nts

/-- Modelled from the spec: `NativeTokenSum.Balanced` requires the two
per-token-id sum maps to be equal. -/
def tokenSumsBalanced (a b : List (TokenID × Nat)) : Bool :=
  (a.all fun p => decide (alookup b p.1 = some p.2)) &&
  (b.all fun p => decide (alookup a p.1 = some p.2))

/-- One direction of the foundry-transition check of
`TxSemanticNativeTokens`: for every token id of `sums` whose companion sum
in `other` is missing or different, the corresponding foundry (keyed by the
token id's `FoundryID()`) must be transitioning on the output side. -/
def tokenSideCheck (other : List (TokenID × Nat)) (outChainsFoundry : List Nat) :
    List (TokenID × Nat) → Except SemErr Unit
  | [] => .ok ()
  | (id, s) :: rest =>
    let mismatch :=
      match alookup other id with
      | none => true
      | some o => decide (s ≠ o)
    if mismatch && !(outChainsFoundry.contains id.foundryID) then
      .error .nativeTokenSumUnbalanced
    else tokenSideCheck other outChainsFoundry rest

/-- `TxSemanticNativeTokens`, translated faithfully from the source: both
`InNativeTokens` and `OutNativeTokens` are computed from
`InputsByType.NativeTokenOutputs().Sum()` — the output-side sum re-sums the
input side (the expression is used twice in the source).  The easy route
(no foundry on either side) compares the two sums; otherwise every
mismatching token id must have a transitioning foundry in `OutChains`. -/
def TxSemanticNativeTokens (svCtx : SemanticValidationContext) : Except SemErr Unit :=
  let inputsSlice := svCtx.WorkingSet.InputSet.map Prod.snd
  match nativeTokenOutputsSum inputsSlice with
  | .error e => .error e
  | .ok inSums =>
    match nativeTokenOutputsSum inputsSlice with
    | .error e => .error e
    | .ok outSums =>
      if !(svCtx.WorkingSet.Tx.Essence.Outputs.any Output.isFoundry) &&
         !(inputsSlice.any Output.isFoundry) then
        if tokenSumsBalanced inSums outSums then .ok ()
        else .error .nativeTokenSumUnbalanced
      else
        match tokenSideCheck outSums svCtx.WorkingSet.OutChainsFoundry inSums with
        | .error e => .error e
        | .ok _ => tokenSideCheck inSums svCtx.WorkingSet.OutChainsFoundry outSums

/-- Modelled from the spec: `AliasIDFromOutputID` derives an alias id from
the referenced output id (a left-truncated hash in the source, outside the
given files); abstracted to an injective encoding that never yields the
zeroed id used as the empty sentinel. -/
def AliasIDFromOutputID (oid : OutputID) : Nat := Nat.pair oid.txID oid.index + 1

/-- The branch of `identToUnlockFromMultiIdentOutput` after the alias id is
resolved: the default identity is the `StateController`, but it becomes the
`GovernanceController` when the alias has no matching chain on the output
side (destruction) or the output-side alias has the same state index
(governance transition). -/
def aliasIdentFor (svCtx : SemanticValidationContext) (a : AliasData) (aliasID : Nat) :
    Address :=
  match alookup svCtx.WorkingSet.OutChainsAlias aliasID with
  | none => a.governanceController
  | some outAlias =>
    if a.stateIndex = outAlias.stateIndex then a.governanceController
    else a.stateController

/-- `identToUnlockFromMultiIdentOutput`: resolve the target identity of an
alias input.  The alias id is the output's own, or derived from the
referenced output id when zeroed (indexing the essence inputs out of bounds
panics in the source). -/
def identToUnlockFromMultiIdentOutput (svCtx : SemanticValidationContext)
    (a : AliasData) (inputIndex : Nat) : Except SemErr Address :=
  if a.aliasID = 0 then
    match svCtx.WorkingSet.Tx.Essence.Inputs.get? inputIndex with
    | none => .error .panicked
    | some ref => .ok (aliasIdentFor svCtx a (AliasIDFromOutputID ref))
  else .ok (aliasIdentFor svCtx a a.aliasID)

/-- `identToUnlock`: `SingleIdentOutput`s yield their stated owner, the
`MultiIdentOutput` (`Alias`) dispatches to
`identToUnlockFromMultiIdentOutput`. -/
def identToUnlock (svCtx : SemanticValidationContext) (input : Output)
    (inputIndex : Nat) : Except SemErr Address :=
  match input with
  | .aliasOut a => identToUnlockFromMultiIdentOutput svCtx a inputIndex
  | .simple address _ => .ok address
  | .extended address _ _ _ => .ok address
  | .foundry address _ _ _ _ _ _ _ => .ok address
  | .nft address _ _ _ _ => .ok address

/-- `checkSenderFeatureBlockIdentUnlock`: when the output carries an
expiration feature block, the sender address (whose presence is guaranteed
by syntactic validation; its absence is an unchecked type assertion and
panics) overrides the target identity exactly when the expiration is past
— both conditions conjoined when both expiration kinds are present. -/
def checkSenderFeatureBlockIdentUnlock (svCtx : SemanticValidationContext)
    (output : Output) : Except SemErr (Option Address) :=
  match output.featureBlockList with
  | none => .ok none
  | some blocks =>
    match featureBlockSet blocks with
    | .error e => .error e
    | .ok fbSet =>
      match findExpMsIndex fbSet, findExpUnix fbSet with
      | none, none => .ok none
      | expMs, expUnix =>
        match findSenderAddress fbSet with
        | none => .error .panicked
        | some sender =>
          match expMs, expUnix with
          | some idx, some ts =>
            if idx ≤ svCtx.ConfirmingMilestoneIndex ∧
               ts ≤ svCtx.ConfirmingMilestoneUnix then .ok (some sender)
            else .ok none
          | some idx, none =>
            if idx ≤ svCtx.ConfirmingMilestoneIndex then .ok (some sender)
            else .ok none
          | none, some ts =>
            if ts ≤ svCtx.ConfirmingMilestoneUnix then .ok (some sender)
            else .ok none
          | none, none => .ok none

/-- The signature-verification capability supplied by the caller
(`ident.Unlock(message, signature)`): identity, signing message, public
key, signature. -/
def SigVerifier : Type := Address → List Nat → Nat → Nat → Bool

/-- `unlockOutput`: resolve the target identity of one input (including the
expiration/sender override) and check it against the paired unlock block,
returning the updated `UnlockedIdents` table.  Unlocked positions are
recorded as `uint16(inputIndex)`. -/
def unlockOutput (verify : SigVerifier) (svCtx : SemanticValidationContext)
    (output : Output) (inputIndex : Nat) :
    Except SemErr (List (Address × Nat)) :=
  match identToUnlock svCtx output inputIndex with
  | .error e => .error e
  | .ok targetIdent0 =>
    match checkSenderFeatureBlockIdentUnlock svCtx output with
    | .error e => .error e
    | .ok actualIdentToUnlock =>
      let targetIdent := actualIdentToUnlock.getD targetIdent0
      match svCtx.WorkingSet.Tx.UnlockBlocks.get? inputIndex with
      | none => .error .panicked
      | some unlockBlock =>
        if targetIdent.isChainConstrained then
          if !(unlockBlock.isReferential && unlockBlock.chainable &&
               unlockBlock.sourceAllowed targetIdent) then
            .error .invalidInputUnlock
          else
            match alookup svCtx.WorkingSet.UnlockedIdents targetIdent with
            | none => .error .invalidInputUnlock
            | some unlockedAtIndex =>
              if unlockedAtIndex ≠ unlockBlock.refIndex then .error .invalidInputUnlock
              else
                match output.chainAddress with
                | some chainAddr =>
                  .ok (ainsert svCtx.WorkingSet.UnlockedIdents chainAddr
                        (inputIndex % 2 ^ 16))
                | none => .ok svCtx.WorkingSet.UnlockedIdents
        else
          match unlockBlock with
          | .signature pubKey sig =>
            match alookup svCtx.WorkingSet.UnlockedIdents targetIdent with
            | some _ => .error .invalidInputUnlock
            | none =>
              if verify targetIdent svCtx.WorkingSet.EssenceMsgToSign pubKey sig then
                .ok (ainsert svCtx.WorkingSet.UnlockedIdents targetIdent
                      (inputIndex % 2 ^ 16))
              else .error .signatureFailed
          | uBlock =>
            if uBlock.chainable || !(uBlock.sourceAllowed targetIdent) then
              .error .invalidInputUnlock
            else
              match alookup svCtx.WorkingSet.UnlockedIdents targetIdent with
              | none => .error .invalidInputUnlock
              | some unlockedAtIndex =>
                if unlockedAtIndex ≠ uBlock.refIndex then .error .invalidInputUnlock
                else .ok svCtx.WorkingSet.UnlockedIdents

/-- Replace the `UnlockedIdents` table of a context (the Go code mutates
the working set in place). -/
def withUnlockedIdents (svCtx : SemanticValidationContext)
    (idents : List (Address × Nat)) : SemanticValidationContext :=
  { svCtx with WorkingSet := { svCtx.WorkingSet with UnlockedIdents := idents } }

/-- The loop of `TxSemanticInputUnlocks`: inputs are processed strictly in
ascending index order; a missing `InputSet` entry fails with
`ErrMissingUTXO`. -/
def runInputUnlocks (verify : SigVerifier) :
    SemanticValidationContext → List OutputID → Nat →
      Except SemErr SemanticValidationContext
  | svCtx, [], _ => .ok svCtx
  | svCtx, ref :: rest, inputIndex =>
    match alookup svCtx.WorkingSet.InputSet ref with
    | none => .error .missingUTXO
    | some input =>
      match unlockOutput verify svCtx input inputIndex with
      | .error e => .error e
      | .ok idents => runInputUnlocks verify (withUnlockedIdents svCtx idents) rest (inputIndex + 1)

/-- `TxSemanticInputUnlocks`: resolve and check the unlock of every input of
the transaction, in order. -/
def TxSemanticInputUnlocks (verify : SigVerifier)
    (svCtx : SemanticValidationContext) : Except SemErr SemanticValidationContext :=
  runInputUnlocks verify svCtx svCtx.WorkingSet.Tx.Essence.Inputs 0

/-- `MaxInputsCount`: the maximum amount of inputs within a
`TransactionEssence`. -/
def MaxInputsCount : Nat := 127

/-- `MinInputsCount`. -/
def MinInputsCount : Nat := 1

/-- `MaxOutputsCount`: the maximum amount of outputs within a
`TransactionEssence`. -/
def MaxOutputsCount : Nat := 127

/-- `MinOutputsCount`. -/
def MinOutputsCount : Nat := 1

/-- Modelled from the spec: the total IOTA token supply (the constant lives
outside the given files). -/
def TokenSupply : Nat := 2779530283277761

/-- Modelled from the spec: the implementation-defined bound on native
tokens per output and per transaction. -/
def MaxNativeTokensCount : Nat := 256

/-- Syntactic-validation error values of src/transaction_essence.go, plus
the codec-level failure categories of the spec that the validating
(de)serialization path surfaces (`arrayBoundViolation`,
`duplicateElement`, `payloadInvalid`). -/
inductive SynErr where
  | minInputsNotReached
  | minOutputsNotReached
  | inputUTXORefsNotUnique
  | refUTXOIndexInvalid
  | depositAmountInvalid
  | outputsSumExceedsTotalSupply
  | nativeTokensCountExceeded
  | outputRequiresSenderFeatureBlock
  | foundryInvalidMaximumSupply
  | foundryInvalidCirculatingSupply
  | aliasOutputNonEmptyState
  | aliasOutputCyclicAddress
  | nftOutputCyclicAddress
  | duplicateFeatureBlockKind
  | arrayBoundViolation
  | duplicateElement
  | payloadInvalid
  | unlockBlocksInvalid
  deriving DecidableEq, Repr

/-- `ArrayRules`: the min/max counts of an array (the uniqueness mode is
carried separately by the call sites in scope). -/
structure ArrayRules where
  Min : Nat
  Max : Nat
  deriving DecidableEq, Repr

/-- `inputsArrayBound`: count within [1,127], no duplicate elements. -/
def inputsArrayBound : ArrayRules := { Min := MinInputsCount, Max := MaxInputsCount }

/-- `outputsArrayBound`: count within [1,127]. -/
def outputsArrayBound : ArrayRules := { Min := MinOutputsCount, Max := MaxOutputsCount }

/-- Modelled from the spec: the serializer's array-bound enforcement — a
count outside [min, max] is an `ArrayBoundViolation`. -/
def ArrayRules.CheckBounds (r : ArrayRules) (count : Nat) : Except SynErr Unit :=
  if count < r.Min then .error .arrayBoundViolation
  else if r.Max < count then .error .arrayBoundViolation
  else .ok ()

/-- Modelled from the spec: `InputsPredicateUnique` and
`InputsPredicateIndicesWithinBounds` — all UTXO references unique, every
`OutputIndex ≤ MaxOutputsCount − 1`. -/
def ValidateInputs (inputs : List OutputID) : Except SynErr Unit :=
  if ¬ inputs.Nodup then .error .inputUTXORefsNotUnique
  else if inputs.any (fun r => decide (MaxOutputsCount - 1 < r.index)) then
    .error .refUTXOIndexInvalid
  else .ok ()

/-- The number of native tokens carried by one output. -/
def Output.nativeTokenCount (o : Output) : Nat :=
  ((o.nativeTokenList).getD []).length

/-- Modelled from the spec: `OutputsPredicateDepositAmount` — every output's
deposit is positive and at most the total supply, and the accumulated
deposit does not exceed the total supply. -/
def OutputsPredicateDepositAmount (outs : List Output) : Except SynErr Unit :=
  if outs.any (fun o => decide (o.deposit = 0) || decide (TokenSupply < o.deposit)) then
    .error .depositAmountInvalid
  else if TokenSupply < (outs.map Output.deposit).sum then
    .error .outputsSumExceedsTotalSupply
  else .ok ()

/-- Modelled from the spec: `OutputsPredicateNativeTokensCount` — the
native-token counts per output and in total stay within
`MaxNativeTokensCount`. -/
def OutputsPredicateNativeTokensCount (outs : List Output) : Except SynErr Unit :=
  if outs.any (fun o => decide (MaxNativeTokensCount < o.nativeTokenCount)) then
    .error .nativeTokensCountExceeded
  else if MaxNativeTokensCount < (outs.map Output.nativeTokenCount).sum then
    .error .nativeTokensCountExceeded
  else .ok ()

/-- Whether a feature-block list contains a kind that requires a
`SenderFeatureBlock` (dust-deposit-return and the expiration kinds) without
carrying one. -/
def missingRequiredSender (blocks : List FeatureBlock) : Bool :=
  (blocks.any fun b => b.kind == 2 || b.kind == 5 || b.kind == 6) &&
  !(blocks.any fun b => b.kind == 0)

/-- Modelled from the spec: `OutputsPredicateSenderFeatureBlockRequirement`. -/
def OutputsPredicateSenderFeatureBlockRequirement (outs : List Output) :
    Except SynErr Unit :=
  if outs.any (fun o => missingRequiredSender ((o.featureBlockList).getD [])) then
    .error .outputRequiresSenderFeatureBlock
  else .ok ()

/-- Modelled from the spec: `OutputsPredicateFoundry` — `MaximumSupply > 0`
and `CirculatingSupply ≤ MaximumSupply`. -/
def OutputsPredicateFoundry (outs : List Output) : Except SynErr Unit :=
  if outs.any (fun o =>
      match o with
      | .foundry _ _ _ _ _ _ maximumSupply _ => decide (maximumSupply = 0)
      | _ => false) then .error .foundryInvalidMaximumSupply
  else if outs.any (fun o =>
      match o with
      | .foundry _ _ _ _ _ circulatingSupply maximumSupply _ =>
        decide (maximumSupply < circulatingSupply)
      | _ => false) then .error .foundryInvalidCirculatingSupply
  else .ok ()

/-- `TransactionEssence.SyntacticallyValidate`: the zero-count checks of the
source followed by the input predicates and the output predicates. -/
def TransactionEssence.SyntacticallyValidate (e : TransactionEssence) :
    Except SynErr Unit :=
  if e.Inputs.length = 0 then .error .minInputsNotReached
  else if e.Outputs.length = 0 then .error .minOutputsNotReached
  else
    match ValidateInputs e.Inputs with
    | .error err => .error err
    | .ok _ =>
      match OutputsPredicateDepositAmount e.Outputs with
      | .error err => .error err
      | .ok _ =>
        match OutputsPredicateNativeTokensCount e.Outputs with
        | .error err => .error err
        | .ok _ =>
          match OutputsPredicateSenderFeatureBlockRequirement e.Outputs with
          | .error err => .error err
          | .ok _ => OutputsPredicateFoundry e.Outputs

/-- Modelled from the spec: `OutputsSyntacticalAlias` — an `AliasOutput`
with zeroed `AliasId` has all state counters zero, and a non-zero
`AliasId` does not collide with its own controller addresses. -/
def OutputsSyntacticalAlias (outs : List Output) : Except SynErr Unit :=
  if outs.any (fun o =>
      match o with
      | .aliasOut a =>
        decide (a.aliasID = 0) &&
        (decide (a.stateIndex ≠ 0) || decide (a.foundryCounter ≠ 0) ||
         decide (a.stateMetadata ≠ []))
      | _ => false) then .error .aliasOutputNonEmptyState
  else if outs.any (fun o =>
      match o with
      | .aliasOut a =>
        decide (a.aliasID ≠ 0) &&
        (decide (a.stateController = .aliasAddr a.aliasID) ||
         decide (a.governanceController = .aliasAddr a.aliasID))
      | _ => false) then .error .aliasOutputCyclicAddress
  else .ok ()

/-- Modelled from the spec: `OutputsSyntacticalNFT` — a non-zero `NFTId`
does not collide with the output's own address field. -/
def OutputsSyntacticalNFT (outs : List Output) : Except SynErr Unit :=
  if outs.any (fun o =>
      match o with
      | .nft address _ _ nftID _ => decide (nftID ≠ 0) && decide (address = .nftAddr nftID)
      | _ => false) then .error .nftOutputCyclicAddress
  else .ok ()

/-- Modelled from the spec: `UnlockBlocksSigUniqueAndRefValidator` —
referential unlocks point strictly backward to an existing entry, and no
two signature unlock blocks are identical. -/
def ValidateUnlockBlocks (ubs : List UnlockBlock) : Except SynErr Unit :=
  if (List.range ubs.length).any (fun i =>
      match ubs.get? i with
      | some b => b.isReferential && decide (i ≤ b.refIndex)
      | none => false) then .error .unlockBlocksInvalid
  else if ¬ (ubs.filter (fun b => !b.isReferential)).Nodup then
    .error .unlockBlocksInvalid
  else .ok ()

/-- `Transaction.syntacticallyValidate`: validate the essence, then the
alias/NFT output rules, then the unlock blocks (the transaction id that the
source derives from the read bytes is passed in by the caller; the model
does not use it because the modelled alias/NFT rules are the id-local
ones of the spec). -/
def Transaction.syntacticallyValidate (t : Transaction) (txID : Nat) :
    Except SynErr Unit :=
  let _ := txID
  match t.Essence.SyntacticallyValidate with
  | .error e => .error e
  | .ok _ =>
    match OutputsSyntacticalAlias t.Essence.Outputs with
    | .error e => .error e
    | .ok _ =>
      match OutputsSyntacticalNFT t.Essence.Outputs with
      | .error e => .error e
      | .ok _ => ValidateUnlockBlocks t.UnlockBlocks

/-- Little-endian two-byte encoding, as the u16 length prefixes of the
layout. -/
def u16le (n : Nat) : List Nat := [n % 256, n / 256 % 256]

/-- Little-endian four-byte encoding, as the u32 payload tag and payload
length of the layout. -/
def u32le (n : Nat) : List Nat :=
  [n % 256, n / 256 % 256, n / 2 ^ 16 % 256, n / 2 ^ 24 % 256]

/-- Modelled from the spec: the element codec of a UTXO input (type byte
followed by the reference; field bytes abstracted). -/
def encodeInput (ref : OutputID) : List Nat := 0 :: ref.txID :: u16le ref.index

/-- Modelled from the spec: element codec of an address. -/
def encodeAddress : Address → List Nat
  | .ed25519 key => [0, key]
  | .aliasAddr id => [8, id]
  | .nftAddr id => [16, id]

/-- Modelled from the spec: element codec of a feature block. -/
def encodeFeatureBlock : FeatureBlock → List Nat
  | .sender a => 0 :: encodeAddress a
  | .issuer a => 1 :: encodeAddress a
  | .dustDepositReturn amount => [2, amount]
  | .timelockMilestoneIndex idx => [3, idx]
  | .timelockUnix ts => [4, ts]
  | .expirationMilestoneIndex idx => [5, idx]
  | .expirationUnix ts => [6, ts]
  | .metadata data => 7 :: data.length :: data
  | .indexationBlock tag => 8 :: tag.length :: tag

/-- Modelled from the spec: element codec of a native token. -/
def encodeNativeToken (nt : NativeToken) : List Nat :=
  [nt.id.foundryID, nt.id.tokenTag, nt.amount]

/-- Modelled from the spec: element codec of an output (type byte followed
by the variant's fields). -/
def encodeOutput : Output → List Nat
  | .simple address amount => 0 :: encodeAddress address ++ [amount]
  | .extended address amount nts fbs =>
    1 :: encodeAddress address ++ [amount] ++
      u16le nts.length ++ (nts.map encodeNativeToken).flatten ++
      u16le fbs.length ++ (fbs.map encodeFeatureBlock).flatten
  | .aliasOut a =>
    2 :: [a.amount] ++ u16le a.nativeTokens.length ++
      (a.nativeTokens.map encodeNativeToken).flatten ++
      [a.aliasID] ++ encodeAddress a.stateController ++
      encodeAddress a.governanceController ++
      [a.stateIndex, a.stateMetadata.length] ++ a.stateMetadata ++
      [a.foundryCounter] ++ u16le a.featureBlocks.length ++
      (a.featureBlocks.map encodeFeatureBlock).flatten
  | .foundry address amount nts serialNumber tokenTag circulatingSupply maximumSupply fbs =>
    3 :: encodeAddress address ++ [amount] ++
      u16le nts.length ++ (nts.map encodeNativeToken).flatten ++
      [serialNumber, tokenTag, circulatingSupply, maximumSupply] ++
      u16le fbs.length ++ (fbs.map encodeFeatureBlock).flatten
  | .nft address amount nts nftID fbs =>
    4 :: encodeAddress address ++ [amount, nftID] ++
      u16le nts.length ++ (nts.map encodeNativeToken).flatten ++
      u16le fbs.length ++ (fbs.map encodeFeatureBlock).flatten

/-- Modelled from the spec: element codec of a payload (without its u32
length prefix). -/
def encodePayload : Payload → List Nat
  | .indexation tag data => u32le 2 ++ tag.length :: tag ++ data.length :: data
  | .otherPayload ty data => u32le ty ++ data.length :: data

/-- Modelled from the spec: element codec of an unlock block. -/
def encodeUnlockBlock : UnlockBlock → List Nat
  | .signature pubKey sig => [0, pubKey, sig]
  | .reference r => 1 :: u16le r
  | .aliasRef r => 2 :: u16le r
  | .nftRef r => 3 :: u16le r

/-- The essence encoding layout: type byte 0, u16 inputs count, inputs, u16
outputs count, outputs, u32 payload byte length (0 when absent), payload. -/
def encodeEssence (e : TransactionEssence) : List Nat :=
  0 :: u16le e.Inputs.length ++ (e.Inputs.map encodeInput).flatten ++
    u16le e.Outputs.length ++ (e.Outputs.map encodeOutput).flatten ++
    (match e.Payload with
     | none => u32le 0
     | some p => u32le (encodePayload p).length ++ encodePayload p)

/-- `TransactionEssence.Serialize`: under `PerformValidation` the embedded
payload must be an indexation payload, the essence must pass
`SyntacticallyValidate`, and the written inputs must be unique by their
encoded bytes; under `NoValidation` the bytes are produced with no
checks. -/
def TransactionEssence.Serialize (e : TransactionEssence)
    (performValidation : Bool) : Except SynErr (List Nat) :=
  if performValidation then
    match e.Payload with
    | some (.otherPayload _ _) => .error .payloadInvalid
    | _ =>
      match e.SyntacticallyValidate with
      | .error err => .error err
      | .ok _ =>
        if ¬ (e.Inputs.map encodeInput).Nodup then .error .duplicateElement
        else .ok (encodeEssence e)
  else .ok (encodeEssence e)

/-- The u32 payload tag of a transaction payload. -/
def PayloadTransaction : Nat := 0

/-- `Transaction.Serialize`: payload tag, essence bytes, u16 unlocks count,
unlocks.  Under `PerformValidation` the unlock-block array's min and max
counts are dynamically set to the input count before enforcement, and the
whole transaction is cross-validated via `syntacticallyValidate` on the
written bytes (hashed by the caller-supplied Blake2b capability). -/
def Transaction.Serialize (hash : List Nat → Nat) (t : Transaction)
    (performValidation : Bool) : Except SynErr (List Nat) :=
  let unlockBlockArrayRulesCopy : ArrayRules :=
    { Min := t.Essence.Inputs.length, Max := t.Essence.Inputs.length }
  match t.Essence.Serialize performValidation with
  | .error e => .error e
  | .ok essenceBytes =>
    match (if performValidation then
            unlockBlockArrayRulesCopy.CheckBounds t.UnlockBlocks.length
           else .ok ()) with
    | .error e => .error e
    | .ok _ =>
      let bytes := u32le PayloadTransaction ++ essenceBytes ++
        u16le t.UnlockBlocks.length ++ (t.UnlockBlocks.map encodeUnlockBlock).flatten
      match (if performValidation then t.syntacticallyValidate (hash bytes)
             else .ok ()) with
      | .error e => .error e
      | .ok _ => .ok bytes

/-- The validating (de)serialization path for a whole transaction: the
array-rule bounds of the essence inputs and outputs, the dynamic
unlock-count rule, and `Transaction.syntacticallyValidate` — the composite
the spec calls the syntactic validation of a transaction. -/
def Transaction.deSeriValidate (t : Transaction) (txID : Nat) : Except SynErr Unit :=
  match inputsArrayBound.CheckBounds t.Essence.Inputs.length with
  | .error e => .error e
  | .ok _ =>
    match outputsArrayBound.CheckBounds t.Essence.Outputs.length with
    | .error e => .error e
    | .ok _ =>
      match (ArrayRules.mk t.Essence.Inputs.length
              t.Essence.Inputs.length).CheckBounds t.UnlockBlocks.length with
      | .error e => .error e
      | .ok _ => t.syntacticallyValidate txID

/-- `Transaction.ID`: the Blake2b-256 hash (abstracted to the supplied
capability) of the `NoValidation` serialization of the transaction. -/
def Transaction.ID (hash : List Nat → Nat) (t : Transaction) : Except SynErr Nat :=
  match t.Serialize hash false with
  | .error e => .error e
  | .ok data => .ok (hash data)

/-- `OutputIDFromTransactionIDAndIndex`. -/
def OutputIDFromTransactionIDAndIndex (txID : Nat) (index : Nat) : OutputID :=
  { txID := txID, index := index }

/-- `Transaction.OutputsSet`: pair the transaction id with each output's
slot index (`uint16(index)`). -/
def Transaction.OutputsSet (hash : List Nat → Nat) (t : Transaction) :
    Except SynErr (List (OutputID × Output)) :=
  match t.ID hash with
  | .error e => .error e
  | .ok txID =>
    .ok (t.Essence.Outputs.enum.map
      (fun p => (OutputIDFromTransactionIDAndIndex txID (p.1 % 2 ^ 16), p.2)))

/-- Whether the deposit loop of `TxSemanticDeposit` processes one `InputSet`
entry without an error: its feature-block set (when present) has unique
kinds, and a dust-deposit-return block is accompanied by a sender block. -/
def entryOk (o : Output) : Bool :=
  match o.featureBlockList with
  | none => true
  | some blocks =>
    if (blocks.map FeatureBlock.kind).Nodup then
      match findDustDepositReturn blocks with
      | none => true
      | some _ => (findSenderAddress blocks).isSome
    else false

/-- Spec-side formulation (to be compared with the source's
`checkSenderFeatureBlockIdentUnlock`): the expiration of a feature-block
list is past relative to the confirming milestone — the milestone-index
expiration requires `idx ≤ msIdx`, the unix expiration requires
`ts ≤ msUnix`, and both conditions are conjoined when both kinds are
present. -/
def expirationPast (msIdx msUnix : Nat) (blocks : List FeatureBlock) : Bool :=
  match findExpMsIndex blocks, findExpUnix blocks with
  | some idx, some ts => decide (idx ≤ msIdx) && decide (ts ≤ msUnix)
  | some idx, none => decide (idx ≤ msIdx)
  | none, some ts => decide (ts ≤ msUnix)
  | none, none => false

/-- Spec-side formulation (to be compared with the source's
`TxSemanticTimelock`): one feature block passes the timelock check under the
given confirming milestone. -/
def blockTimelockOk (msIdx msUnix : Nat) : FeatureBlock → Bool
  | .timelockMilestoneIndex idx => decide (idx ≤ msIdx)
  | .timelockUnix ts => decide (ts ≤ msUnix)
  | _ => true

/-- Extend a context's `InputSet` map with one more entry. -/
def withInputEntry (svCtx : SemanticValidationContext) (k : OutputID) (o : Output) :
    SemanticValidationContext :=
  { svCtx with
    WorkingSet := { svCtx.WorkingSet with InputSet := (k, o) :: svCtx.WorkingSet.InputSet } }

/-- Assemble a semantic-validation context from its parts (as
`NewSemValiContextWorkingSet` would populate it). -/
def mkCtx (msIdx msUnix : Nat) (unlockedIdents : List (Address × Nat))
    (inputSet : List (OutputID × Output)) (tx : Transaction)
    (outChainsAlias : List (Nat × AliasData)) (outChainsFoundry : List Nat) :
    SemanticValidationContext :=
  { ConfirmingMilestoneIndex := msIdx
    ConfirmingMilestoneUnix := msUnix
    WorkingSet :=
      { UnlockedIdents := unlockedIdents
        InputSet := inputSet
        Tx := tx
        EssenceMsgToSign := []
        OutChainsAlias := outChainsAlias
        OutChainsFoundry := outChainsFoundry } }

/-- A one-input transaction skeleton used by the concrete instances. -/
def mkTx (ins : List OutputID) (outs : List Output) (ubs : List UnlockBlock) :
    Transaction :=
  { Essence := { Inputs := ins, Outputs := outs, Payload := none }
    UnlockBlocks := ubs }

/-- Concrete input for the native-token claim: the consumed output carries
five units of a native token, the transaction's outputs carry none, and no
foundry is present on either side. -/
def ntInputOutput : Output :=
  .extended (.ed25519 9) 100 [{ id := { foundryID := 7, tokenTag := 1 }, amount := 5 }] []

/-- The context of the native-token concrete input. -/
def ntCtx : SemanticValidationContext :=
  mkCtx 0 0 [] [({ txID := 1, index := 0 }, ntInputOutput)]
    (mkTx [{ txID := 1, index := 0 }] [.simple (.ed25519 8) 100] [.signature 1 1]) [] []

/-- Concrete context whose true input-side deposit sum exceeds `2 ^ 64`:
two inputs of `2 ^ 63` and `2 ^ 63 + 5` against a single output of `5`. -/
def overflowCtx : SemanticValidationContext :=
  mkCtx 0 0 []
    [({ txID := 1, index := 0 }, .simple (.ed25519 1) (2 ^ 63)),
     ({ txID := 1, index := 1 }, .simple (.ed25519 2) (2 ^ 63 + 5))]
    (mkTx [{ txID := 1, index := 0 }, { txID := 1, index := 1 }]
      [.simple (.ed25519 3) 5] [.signature 1 1, .reference 0]) [] []

/-- Concrete context with a zero-amount dust-deposit return and no plain
transfer to the return identity: the deposit sums balance, the aggregated
return amount for the sender identity is `0`, and no output pays that
identity. -/
def zeroReturnCtx : SemanticValidationContext :=
  mkCtx 0 0 []
    [({ txID := 1, index := 0 },
      .extended (.ed25519 1) 100 [] [.sender (.ed25519 2), .dustDepositReturn 0])]
    (mkTx [{ txID := 1, index := 0 }] [.simple (.ed25519 3) 100] [.signature 1 1]) [] []

/-- A context that passes the deposit-balance step: one input of `5`
against one output of `5`. -/
def balancedCtx : SemanticValidationContext :=
  mkCtx 0 0 [] [({ txID := 1, index := 0 }, .simple (.ed25519 1) 5)]
    (mkTx [{ txID := 1, index := 0 }] [.simple (.ed25519 2) 5] [.signature 1 1]) [] []

/-- Concrete alias input data used by the multi-ident witness: non-zero
alias id `3`, distinct controllers, state index `4`. -/
def aliasWitnessData : AliasData :=
  { amount := 50
    nativeTokens := []
    aliasID := 3
    stateController := .ed25519 10
    governanceController := .ed25519 11
    stateIndex := 4
    stateMetadata := []
    foundryCounter := 0
    featureBlocks := [] }

/-- A context in which alias chain `3` transitions on the output side with
a bumped state index (a state transition, so the state controller must
unlock). -/
def aliasCtx : SemanticValidationContext :=
  mkCtx 0 0 [] [({ txID := 1, index := 0 }, .aliasOut aliasWitnessData)]
    (mkTx [{ txID := 1, index := 0 }]
      [.aliasOut { aliasWitnessData with stateIndex := 5 }] [.signature 1 1])
    [(3, { aliasWitnessData with stateIndex := 5 })] []

/-- An output carrying an unexpired unix expiration together with a sender
block. -/
def expirationOutput : Output :=
  .extended (.ed25519 1) 100 [] [.sender (.ed25519 2), .expirationUnix 1000]

/-- A context whose confirming milestone timestamp has passed the
expiration of `expirationOutput`. -/
def expirationCtx : SemanticValidationContext :=
  mkCtx 7 1000 [] [({ txID := 1, index := 0 }, expirationOutput)]
    (mkTx [{ txID := 1, index := 0 }] [.simple (.ed25519 3) 100] [.signature 1 1]) [] []

/-- A context for the signature-unlock witness: a single simple input held
by an Ed25519 address, paired with a signature unlock block. -/
def sigCtx : SemanticValidationContext :=
  mkCtx 0 0 [] [({ txID := 1, index := 0 }, .simple (.ed25519 1) 5)]
    (mkTx [{ txID := 1, index := 0 }] [.simple (.ed25519 2) 5] [.signature 42 43]) [] []

/-- A signature verifier that accepts everything (standing in for a caller
whose `Unlock` capability succeeds). -/
def acceptAll : SigVerifier := fun _ _ _ _ => true

/-- A transaction with no inputs, one output and one unlock block — it
violates the input-count bound. -/
def noInputsTx : Transaction :=
  mkTx [] [.simple (.ed25519 1) 5] [.signature 1 1]

/-- Spec-side formulation (to be compared with the source's
`TxSemanticTimelock`): a feature block that the confirming milestone does
not yet satisfy. -/
def TimelockViolation (msIdx msUnix : Nat) (b : FeatureBlock) : Prop :=
  (∃ idx, b = .timelockMilestoneIndex idx ∧ msIdx < idx) ∨
  (∃ ts, b = .timelockUnix ts ∧ msUnix < ts)

theorem timelockViolation_iff (msIdx msUnix : Nat) (b : FeatureBlock) :
    TimelockViolation msIdx msUnix b ↔ blockTimelockOk msIdx msUnix b = false := by
  cases b <;> simp [TimelockViolation, blockTimelockOk]

theorem timelockBlocksCheck_cases (msIdx msUnix : Nat) (blocks : List FeatureBlock) :
    timelockBlocksCheck msIdx msUnix blocks = .ok () ∨
    timelockBlocksCheck msIdx msUnix blocks = .error .invalidInputUnlock := by
  induction blocks with
  | nil => left; rfl
  | cons b rest ih =>
    cases b <;> simp only [timelockBlocksCheck] <;>
      first
        | exact ih
        | (split
           · right; rfl
           · exact ih)

theorem timelockBlocksCheck_ok_iff (msIdx msUnix : Nat) (blocks : List FeatureBlock) :
    timelockBlocksCheck msIdx msUnix blocks = .ok () ↔
      blocks.all (blockTimelockOk msIdx msUnix) = true := by
  induction blocks with
  | nil => simp [timelockBlocksCheck]
  | cons b rest ih =>
    cases b with
    | timelockMilestoneIndex idx =>
      by_cases h : msIdx < idx
      · have hd : decide (idx ≤ msIdx) = false := by simp; omega
        simp [timelockBlocksCheck, h, blockTimelockOk, hd]
      · have hd : decide (idx ≤ msIdx) = true := by simp; omega
        simp [timelockBlocksCheck, h, blockTimelockOk, hd, ih]
    | timelockUnix ts =>
      by_cases h : msUnix < ts
      · have hd : decide (ts ≤ msUnix) = false := by simp; omega
        simp [timelockBlocksCheck, h, blockTimelockOk, hd]
      · have hd : decide (ts ≤ msUnix) = true := by simp; omega
        simp [timelockBlocksCheck, h, blockTimelockOk, hd, ih]
    | sender a => simp [timelockBlocksCheck, blockTimelockOk, ih]
    | issuer a => simp [timelockBlocksCheck, blockTimelockOk, ih]
    | dustDepositReturn amount => simp [timelockBlocksCheck, blockTimelockOk, ih]
    | expirationMilestoneIndex idx => simp [timelockBlocksCheck, blockTimelockOk, ih]
    | expirationUnix ts => simp [timelockBlocksCheck, blockTimelockOk, ih]
    | metadata data => simp [timelockBlocksCheck, blockTimelockOk, ih]
    | indexationBlock tag => simp [timelockBlocksCheck, blockTimelockOk, ih]

theorem timelockBlocksCheck_error_iff (msIdx msUnix : Nat) (blocks : List FeatureBlock) :
    timelockBlocksCheck msIdx msUnix blocks = .error .invalidInputUnlock ↔
      ¬ blocks.all (blockTimelockOk msIdx msUnix) = true := by
  constructor
  · intro he hall
    rw [← timelockBlocksCheck_ok_iff] at hall
    rw [he] at hall
    cases hall
  · intro hna
    rcases timelockBlocksCheck_cases msIdx msUnix blocks with h | h
    · exact absurd ((timelockBlocksCheck_ok_iff _ _ _).1 h) hna
    · exact h

theorem timelockInputsCheck_cases (msIdx msUnix : Nat) (l : List (OutputID × Output)) :
    timelockInputsCheck msIdx msUnix l = .ok () ∨
    timelockInputsCheck msIdx msUnix l = .error .invalidInputUnlock := by
  induction l with
  | nil => left; rfl
  | cons p rest ih =>
    obtain ⟨k, o⟩ := p
    simp only [timelockInputsCheck]
    cases hfb : o.featureBlockList with
    | none => exact ih
    | some blocks =>
      dsimp only
      rcases timelockBlocksCheck_cases msIdx msUnix blocks with h | h
      · rw [h]; exact ih
      · rw [h]; right; rfl

theorem timelockInputsCheck_ok_iff (msIdx msUnix : Nat) (l : List (OutputID × Output)) :
    timelockInputsCheck msIdx msUnix l = .ok () ↔
      ∀ p ∈ l, ∀ blocks, p.2.featureBlockList = some blocks →
        blocks.all (blockTimelockOk msIdx msUnix) = true := by
  induction l with
  | nil => simp [timelockInputsCheck]
  | cons p rest ih =>
    obtain ⟨k, o⟩ := p
    simp only [timelockInputsCheck]
    cases hfb : o.featureBlockList with
    | none =>
      rw [ih]
      simp only [List.mem_cons]
      constructor
      · intro hr p' hp'
        rcases hp' with hp' | hp'
        · intro blocks hblocks
          rw [hp'] at hblocks
          simp only at hblocks
          rw [hfb] at hblocks
          cases hblocks
        · exact hr p' hp'
      · intro hall p' hp'
        exact hall p' (Or.inr hp')
    | some blocks =>
      dsimp only
      rcases timelockBlocksCheck_cases msIdx msUnix blocks with h | h
      · rw [h]
        rw [ih]
        simp only [List.mem_cons]
        constructor
        · intro hr p' hp'
          rcases hp' with hp' | hp'
          · intro blocks' hblocks'
            rw [hp'] at hblocks'
            simp only at hblocks'
            rw [hfb] at hblocks'
            cases hblocks'
            exact (timelockBlocksCheck_ok_iff _ _ _).1 h
          · exact hr p' hp'
        · intro hall p' hp'
          exact hall p' (Or.inr hp')
      · rw [h]
        constructor
        · intro hc
          cases hc
        · intro hall
          exact absurd (hall (k, o) (List.mem_cons_self _ _) blocks hfb)
            ((timelockBlocksCheck_error_iff _ _ _).1 h)

theorem timelockInputsCheck_error_iff (msIdx msUnix : Nat) (l : List (OutputID × Output)) :
    timelockInputsCheck msIdx msUnix l = .error .invalidInputUnlock ↔
      ∃ p ∈ l, ∃ blocks, p.2.featureBlockList = some blocks ∧
        ∃ b ∈ blocks, TimelockViolation msIdx msUnix b := by
  have herr : timelockInputsCheck msIdx msUnix l = .error .invalidInputUnlock ↔
      ¬ timelockInputsCheck msIdx msUnix l = .ok () := by
    constructor
    · intro he hok
      rw [he] at hok
      cases hok
    · intro hna
      rcases timelockInputsCheck_cases msIdx msUnix l with h | h
      · exact absurd h hna
      · exact h
  rw [herr, timelockInputsCheck_ok_iff]
  push_neg
  constructor
  · rintro ⟨p, hp, blocks, hblocks, hnall⟩
    refine ⟨p, hp, blocks, hblocks, ?_⟩
    have hne : ¬ ∀ b ∈ blocks, blockTimelockOk msIdx msUnix b = true := by
      rw [← List.all_eq_true]
      exact hnall
    push_neg at hne
    obtain ⟨b, hb, hbv⟩ := hne
    refine ⟨b, hb, (timelockViolation_iff _ _ _).2 ?_⟩
    cases hcase : blockTimelockOk msIdx msUnix b
    · rfl
    · exact absurd hcase hbv
  · rintro ⟨p, hp, blocks, hblocks, b, hb, hbv⟩
    refine ⟨p, hp, blocks, hblocks, ?_⟩
    intro hall
    rw [List.all_eq_true] at hall
    have hbt := hall b hb
    rw [timelockViolation_iff] at hbv
    rw [hbv] at hbt
    cases hbt

/-- C8: the semantic Timelock step fails with `InvalidInputUnlock` exactly
when some `InputSet` entry carries a `TimelockMilestoneIndex(idx)` feature
block with `ctx.milestoneIndex < idx` or a `TimelockUnix(ts)` feature block
with `ctx.milestoneUnix < ts` (so a timelock equal to the confirming value
passes), and `InvalidInputUnlock` is the only error the step can
produce. -/
theorem claim_C8_timelock_spec (svCtx : SemanticValidationContext) :
    (TxSemanticTimelock svCtx = .error .invalidInputUnlock ↔
      ∃ p ∈ svCtx.WorkingSet.InputSet, ∃ blocks, p.2.featureBlockList = some blocks ∧
        ∃ b ∈ blocks,
          TimelockViolation svCtx.ConfirmingMilestoneIndex svCtx.ConfirmingMilestoneUnix b) ∧
    (TxSemanticTimelock svCtx = .ok () ∨
     TxSemanticTimelock svCtx = .error .invalidInputUnlock) := by
  exact ⟨timelockInputsCheck_error_iff _ _ _, timelockInputsCheck_cases _ _ _⟩

/-- C1: in the source, `TxSemanticNativeTokens` computes the output-side
sum by re-summing the input side, so on a transaction whose consumed input
carries native tokens, whose outputs carry none and where no foundry is
present on either side, the step succeeds — although the independently
computed side sums differ, which per the spec must be rejected with
`NativeTokenSumUnbalanced`. -/
theorem claim_C1_native_tokens_resummed :
    TxSemanticNativeTokens ntCtx = .ok () ∧
    nativeTokenOutputsSum (ntCtx.WorkingSet.InputSet.map Prod.snd) =
      .ok [({ foundryID := 7, tokenTag := 1 }, 5)] ∧
    nativeTokenOutputsSum ntCtx.WorkingSet.Tx.Essence.Outputs = .ok [] ∧
    ntCtx.WorkingSet.Tx.Essence.Outputs.any Output.isFoundry = false ∧
    (ntCtx.WorkingSet.InputSet.map Prod.snd).any Output.isFoundry = false :=
  ⟨rfl, rfl, rfl, rfl, rfl⟩

theorem checkBounds_ok (r : ArrayRules) (c : Nat)
    (h : r.CheckBounds c = .ok ()) : r.Min ≤ c ∧ c ≤ r.Max := by
  unfold ArrayRules.CheckBounds at h
  split at h
  · cases h
  · split at h
    · cases h
    · omega

/-- C2: the validating (de)serialization path of a transaction rejects
every transaction whose input count or output count is zero or exceeds
127, or whose unlock-block count differs from its input count. -/
theorem claim_C2_syntactic_bounds (t : Transaction) (txID : Nat)
    (h : t.Essence.Inputs.length = 0 ∨ 127 < t.Essence.Inputs.length ∨
         t.Essence.Outputs.length = 0 ∨ 127 < t.Essence.Outputs.length ∨
         t.UnlockBlocks.length ≠ t.Essence.Inputs.length) :
    t.deSeriValidate txID ≠ .ok () := by
  intro hok
  unfold Transaction.deSeriValidate at hok
  cases h1 : inputsArrayBound.CheckBounds t.Essence.Inputs.length with
  | error e => rw [h1] at hok; cases hok
  | ok u =>
    cases u
    rw [h1] at hok
    have hb1 := checkBounds_ok _ _ h1
    cases h2 : outputsArrayBound.CheckBounds t.Essence.Outputs.length with
    | error e => rw [h2] at hok; cases hok
    | ok u2 =>
      cases u2
      rw [h2] at hok
      have hb2 := checkBounds_ok _ _ h2
      cases h3 : (ArrayRules.mk t.Essence.Inputs.length
          t.Essence.Inputs.length).CheckBounds t.UnlockBlocks.length with
      | error e => rw [h3] at hok; cases hok
      | ok u3 =>
        have hb3 := checkBounds_ok _ _ h3
        simp only [inputsArrayBound, outputsArrayBound, MinInputsCount,
          MaxInputsCount, MinOutputsCount, MaxOutputsCount] at hb1 hb2 hb3
        rcases h with h | h | h | h | h <;> omega

/-- C2 witness: a transaction with zero inputs is rejected by the
validating path. -/
theorem claim_C2_syntactic_bounds_witness :
    noInputsTx.Essence.Inputs.length = 0 ∧
    noInputsTx.deSeriValidate 0 ≠ .ok () :=
  ⟨rfl, claim_C2_syntactic_bounds noInputsTx 0 (Or.inl rfl)⟩

theorem depositInputSide_ok_sum (l : List (OutputID × Output)) (s : Nat)
    (m' : List (Address × Nat)) :
    ∀ (acc : Nat) (m : List (Address × Nat)), acc < 2 ^ 64 →
      depositInputSide l acc m = .ok (s, m') →
      s = (acc + (l.map (fun p => p.2.deposit)).sum) % 2 ^ 64 := by
  induction l with
  | nil =>
    intro acc m hacc h
    simp only [depositInputSide, Except.ok.injEq, Prod.mk.injEq] at h
    obtain ⟨h1, _⟩ := h
    simp only [List.map_nil, List.sum_nil, Nat.add_zero]
    omega
  | cons p rest ih =>
    obtain ⟨k, o⟩ := p
    intro acc m hacc h
    simp only [depositInputSide] at h
    have hlt : add64 acc o.deposit < 2 ^ 64 := Nat.mod_lt _ (by norm_num)
    have key : ∀ m₂, depositInputSide rest (add64 acc o.deposit) m₂ = .ok (s, m') →
        s = (acc + (((k, o) :: rest).map (fun p => p.2.deposit)).sum) % 2 ^ 64 := by
      intro m₂ h₂
      rw [ih (add64 acc o.deposit) m₂ hlt h₂]
      simp only [List.map_cons, List.sum_cons, add64]
      rw [Nat.mod_add_mod, Nat.add_assoc]
    cases hfb : o.featureBlockList with
    | none =>
      rw [hfb] at h
      exact key m h
    | some blocks =>
      rw [hfb] at h
      dsimp only at h
      by_cases hnd : (blocks.map FeatureBlock.kind).Nodup
      · rw [featureBlockSet, if_pos hnd] at h
        dsimp only at h
        cases hd : findDustDepositReturn blocks with
        | none =>
          rw [hd] at h
          exact key m h
        | some amount =>
          rw [hd] at h
          dsimp only at h
          cases hs : findSenderAddress blocks with
          | none => rw [hs] at h; cases h
          | some ident =>
            rw [hs] at h
            exact key _ h
      · rw [featureBlockSet, if_neg hnd] at h
        cases h

theorem depositInputSide_entries (l : List (OutputID × Output)) :
    ∀ (acc : Nat) (m : List (Address × Nat)) (r : Nat × List (Address × Nat)),
      depositInputSide l acc m = .ok r → ∀ p ∈ l, entryOk p.2 = true := by
  induction l with
  | nil => intro acc m r _ p hp; cases hp
  | cons p rest ih =>
    obtain ⟨k, o⟩ := p
    intro acc m r h p' hp'
    simp only [depositInputSide] at h
    rcases List.mem_cons.1 hp' with hp' | hp'
    · rw [hp']
      show entryOk o = true
      unfold entryOk
      cases hfb : o.featureBlockList with
      | none => rfl
      | some blocks =>
        rw [hfb] at h
        dsimp only at h
        dsimp only
        by_cases hnd : (blocks.map FeatureBlock.kind).Nodup
        · rw [featureBlockSet, if_pos hnd] at h
          dsimp only at h
          rw [if_pos hnd]
          cases hd : findDustDepositReturn blocks with
          | none => rfl
          | some amount =>
            rw [hd] at h
            dsimp only at h
            cases hs : findSenderAddress blocks with
            | none => rw [hs] at h; cases h
            | some ident => rfl
        · rw [featureBlockSet, if_neg hnd] at h
          cases h
    · cases hfb : o.featureBlockList with
      | none =>
        rw [hfb] at h
        exact ih _ _ _ h p' hp'
      | some blocks =>
        rw [hfb] at h
        dsimp only at h
        by_cases hnd : (blocks.map FeatureBlock.kind).Nodup
        · rw [featureBlockSet, if_pos hnd] at h
          dsimp only at h
          cases hd : findDustDepositReturn blocks with
          | none =>
            rw [hd] at h
            exact ih _ _ _ h p' hp'
          | some amount =>
            rw [hd] at h
            dsimp only at h
            cases hs : findSenderAddress blocks with
            | none => rw [hs] at h; cases h
            | some ident =>
              rw [hs] at h
              exact ih _ _ _ h p' hp'
        · rw [featureBlockSet, if_neg hnd] at h
          cases h

theorem depositInputSide_ok_exists (l : List (OutputID × Output))
    (hall : ∀ p ∈ l, entryOk p.2 = true) :
    ∀ (acc : Nat) (m : List (Address × Nat)),
      ∃ s m', depositInputSide l acc m = .ok (s, m') := by
  induction l with
  | nil => intro acc m; exact ⟨acc, m, rfl⟩
  | cons p rest ih =>
    obtain ⟨k, o⟩ := p
    have ho : entryOk o = true := hall (k, o) (List.mem_cons_self _ _)
    have hrest : ∀ p ∈ rest, entryOk p.2 = true :=
      fun p hp => hall p (List.mem_cons_of_mem _ hp)
    intro acc m
    simp only [depositInputSide]
    unfold entryOk at ho
    cases hfb : o.featureBlockList with
    | none => exact ih hrest _ _
    | some blocks =>
      rw [hfb] at ho
      dsimp only at ho ⊢
      by_cases hnd : (blocks.map FeatureBlock.kind).Nodup
      · rw [featureBlockSet, if_pos hnd]
        rw [if_pos hnd] at ho
        dsimp only
        cases hd : findDustDepositReturn blocks with
        | none => exact ih hrest _ _
        | some amount =>
          rw [hd] at ho
          dsimp only at ho
          cases hs : findSenderAddress blocks with
          | none =>
            rw [hs] at ho
            simp at ho
          | some ident =>
            dsimp only
            exact ih hrest _ _
      · rw [if_neg hnd] at ho
        cases ho

theorem depositOutputSide_fst (l : List Output) :
    ∀ (acc : Nat) (m : List (Address × Nat)), acc < 2 ^ 64 →
      (depositOutputSide l acc m).1 = (acc + (l.map Output.deposit).sum) % 2 ^ 64 := by
  induction l with
  | nil =>
    intro acc m hacc
    simp only [depositOutputSide, List.map_nil, List.sum_nil, Nat.add_zero]
    omega
  | cons o rest ih =>
    intro acc m hacc
    have hlt : add64 acc o.deposit < 2 ^ 64 := Nat.mod_lt _ (by norm_num)
    have key : ∀ m₂, (depositOutputSide rest (add64 acc o.deposit) m₂).1 =
        (acc + ((o :: rest).map Output.deposit).sum) % 2 ^ 64 := by
      intro m₂
      rw [ih _ m₂ hlt]
      simp only [List.map_cons, List.sum_cons, add64]
      rw [Nat.mod_add_mod, Nat.add_assoc]
    cases o with
    | simple address amount => exact key _
    | extended address amount nts fbs =>
      simp only [depositOutputSide]
      split
      · exact key _
      · exact key _
    | aliasOut a => exact key _
    | foundry address amount nts sn tt cs ms fbs => exact key _
    | nft address amount nts id fbs => exact key _

theorem checkReturns_cases (transfers rm : List (Address × Nat)) :
    checkReturns transfers rm = .ok () ∨
    checkReturns transfers rm = .error .returnAmountNotFulfilled := by
  induction rm with
  | nil => left; rfl
  | cons p rest ih =>
    obtain ⟨ident, ret⟩ := p
    simp only [checkReturns]
    cases h : alookup transfers ident with
    | none => right; rfl
    | some os =>
      dsimp only
      split
      · right; rfl
      · exact ih

theorem checkReturns_ok_iff (transfers rm : List (Address × Nat)) :
    checkReturns transfers rm = .ok () ↔
      ∀ p ∈ rm, ∃ os, alookup transfers p.1 = some os ∧ p.2 ≤ os := by
  induction rm with
  | nil => simp [checkReturns]
  | cons p rest ih =>
    obtain ⟨ident, ret⟩ := p
    simp only [checkReturns, List.mem_cons]
    cases h : alookup transfers ident with
    | none =>
      dsimp only
      constructor
      · intro hc; cases hc
      · intro hall
        obtain ⟨os, hos, _⟩ := hall (ident, ret) (Or.inl rfl)
        dsimp only at hos
        rw [h] at hos
        cases hos
    | some os =>
      dsimp only
      by_cases hlt : os < ret
      · rw [if_pos hlt]
        constructor
        · intro hc; cases hc
        · intro hall
          obtain ⟨os', hos', hge⟩ := hall (ident, ret) (Or.inl rfl)
          dsimp only at hos' hge
          rw [h] at hos'
          cases hos'
          exact absurd hge (not_le.mpr hlt)
      · rw [if_neg hlt, ih]
        constructor
        · intro hr p' hp'
          rcases hp' with hp' | hp'
          · rw [hp']
            exact ⟨os, h, by omega⟩
          · exact hr p' hp'
        · intro hall p' hp'
          exact hall p' (Or.inr hp')

theorem txSemanticDeposit_eq (svCtx : SemanticValidationContext) (s : Nat)
    (rm : List (Address × Nat))
    (h : depositInputSide svCtx.WorkingSet.InputSet 0 [] = .ok (s, rm)) :
    TxSemanticDeposit svCtx =
      if s ≠ (depositOutputSide svCtx.WorkingSet.Tx.Essence.Outputs 0 []).1 then
        .error (.inputOutputSumMismatch s
          (depositOutputSide svCtx.WorkingSet.Tx.Essence.Outputs 0 []).1)
      else checkReturns (depositOutputSide svCtx.WorkingSet.Tx.Essence.Outputs 0 []).2 rm := by
  unfold TxSemanticDeposit
  rw [h]

/-- C3 counterexample: on a context whose true input-side deposit sum is
`2 ^ 64 + 5`, the Deposit step reports no overflow and succeeds — the
summation wraps modulo `2 ^ 64` instead of detecting overflow, refuting the
claim that every addition over user-supplied amounts is checked. -/
theorem claim_C3_counterexample :
    TxSemanticDeposit overflowCtx = .ok () ∧
    2 ^ 64 < (overflowCtx.WorkingSet.InputSet.map (fun p => p.2.deposit)).sum :=
  ⟨rfl, by decide⟩

/-- C3 amended: the Deposit step's u64 sums are computed with wrap-around
arithmetic — the input-side accumulator equals the true sum reduced modulo
`2 ^ 64`, likewise the output side, and the step fails with
`InputOutputSumMismatch` exactly when the two wrapped sums differ (no
overflow error exists on this path). -/
theorem claim_C3_deposit_wraps (svCtx : SemanticValidationContext) (s : Nat)
    (rm : List (Address × Nat))
    (h : depositInputSide svCtx.WorkingSet.InputSet 0 [] = .ok (s, rm)) :
    s = (svCtx.WorkingSet.InputSet.map (fun p => p.2.deposit)).sum % 2 ^ 64 ∧
    (depositOutputSide svCtx.WorkingSet.Tx.Essence.Outputs 0 []).1 =
      (svCtx.WorkingSet.Tx.Essence.Outputs.map Output.deposit).sum % 2 ^ 64 ∧
    ((∃ a b, TxSemanticDeposit svCtx = .error (.inputOutputSumMismatch a b)) ↔
      s ≠ (depositOutputSide svCtx.WorkingSet.Tx.Essence.Outputs 0 []).1) := by
  refine ⟨?_, ?_, ?_⟩
  · have hs := depositInputSide_ok_sum svCtx.WorkingSet.InputSet s rm 0 [] (by norm_num) h
    simpa using hs
  · have ho := depositOutputSide_fst svCtx.WorkingSet.Tx.Essence.Outputs 0 [] (by norm_num)
    simpa using ho
  · rw [txSemanticDeposit_eq svCtx s rm h]
    by_cases hne : s ≠ (depositOutputSide svCtx.WorkingSet.Tx.Essence.Outputs 0 []).1
    · rw [if_pos hne]
      simp [hne]
    · rw [if_neg hne]
      constructor
      · rintro ⟨a, b, hab⟩
        rcases checkReturns_cases (depositOutputSide svCtx.WorkingSet.Tx.Essence.Outputs 0 []).2 rm
          with hc | hc
        · rw [hc] at hab; cases hab
        · rw [hc] at hab; cases hab
      · intro hcontra
        exact absurd hcontra hne

/-- C3 amended witness: on the balanced context the input-side accumulator
is the (un-wrapped, already small) sum `5`. -/
theorem claim_C3_deposit_wraps_witness :
    depositInputSide balancedCtx.WorkingSet.InputSet 0 [] = .ok (5, []) ∧
    5 = (balancedCtx.WorkingSet.InputSet.map (fun p => p.2.deposit)).sum % 2 ^ 64 :=
  ⟨rfl, (claim_C3_deposit_wraps balancedCtx 5 [] rfl).1⟩

/-- C4 counterexample: an input carries `DustDepositReturn(0)` with sender
`ed25519 2`, the deposit sums balance (`100 = 100`), the aggregated return
amount for that identity is `0` — so the claim's condition "plain-transfer
sum `≥` declared return amount" holds (`0 ≥ 0`) — and yet the step fails
with `ReturnAmountNotFulfilled` because no plain-transfer output to that
identity exists at all. -/
theorem claim_C4_counterexample :
    TxSemanticDeposit zeroReturnCtx = .error .returnAmountNotFulfilled ∧
    depositInputSide zeroReturnCtx.WorkingSet.InputSet 0 [] =
      .ok (100, [(.ed25519 2, 0)]) ∧
    (depositOutputSide zeroReturnCtx.WorkingSet.Tx.Essence.Outputs 0 []).1 = 100 ∧
    alookup (depositOutputSide zeroReturnCtx.WorkingSet.Tx.Essence.Outputs 0 []).2
      (.ed25519 2) = none :=
  ⟨rfl, rfl, rfl, rfl⟩

/-- C4 amended: given a successfully processed input side, the Deposit step
passes iff the wrapped sums are equal and every identity with an aggregated
dust-deposit return has at least one plain-transfer output binding whose
aggregated amount is at least the aggregated return; an unequal sum fails
with `InputOutputSumMismatch` (carrying both sums) and an unmet return
fails with `ReturnAmountNotFulfilled`. -/
theorem claim_C4_deposit_spec (svCtx : SemanticValidationContext) (s : Nat)
    (rm : List (Address × Nat))
    (h : depositInputSide svCtx.WorkingSet.InputSet 0 [] = .ok (s, rm)) :
    (TxSemanticDeposit svCtx = .ok () ↔
      s = (depositOutputSide svCtx.WorkingSet.Tx.Essence.Outputs 0 []).1 ∧
      ∀ p ∈ rm, ∃ os,
        alookup (depositOutputSide svCtx.WorkingSet.Tx.Essence.Outputs 0 []).2 p.1 =
          some os ∧ p.2 ≤ os) ∧
    (s ≠ (depositOutputSide svCtx.WorkingSet.Tx.Essence.Outputs 0 []).1 →
      TxSemanticDeposit svCtx = .error (.inputOutputSumMismatch s
        (depositOutputSide svCtx.WorkingSet.Tx.Essence.Outputs 0 []).1)) ∧
    (s = (depositOutputSide svCtx.WorkingSet.Tx.Essence.Outputs 0 []).1 →
      ¬ (∀ p ∈ rm, ∃ os,
        alookup (depositOutputSide svCtx.WorkingSet.Tx.Essence.Outputs 0 []).2 p.1 =
          some os ∧ p.2 ≤ os) →
      TxSemanticDeposit svCtx = .error .returnAmountNotFulfilled) := by
  rw [txSemanticDeposit_eq svCtx s rm h]
  refine ⟨?_, ?_, ?_⟩
  · by_cases hne : s ≠ (depositOutputSide svCtx.WorkingSet.Tx.Essence.Outputs 0 []).1
    · rw [if_pos hne]
      constructor
      · intro hc; cases hc
      · intro hc
        exact absurd hc.1 hne
    · rw [if_neg hne]
      rw [not_ne_iff] at hne
      rw [checkReturns_ok_iff]
      constructor
      · intro hall
        exact ⟨hne, hall⟩
      · intro hc
        exact hc.2
  · intro hne
    rw [if_pos hne]
  · intro heq hnall
    rw [if_neg (not_ne_iff.mpr heq)]
    rcases checkReturns_cases (depositOutputSide svCtx.WorkingSet.Tx.Essence.Outputs 0 []).2 rm
      with hc | hc
    · rw [checkReturns_ok_iff] at hc
      exact absurd hc hnall
    · exact hc

/-- C4 amended witness: the balanced context passes the Deposit step. -/
theorem claim_C4_deposit_spec_witness :
    depositInputSide balancedCtx.WorkingSet.InputSet 0 [] = .ok (5, []) ∧
    TxSemanticDeposit balancedCtx = .ok () :=
  ⟨rfl, ((claim_C4_deposit_spec balancedCtx 5 [] rfl).1).2 ⟨rfl, by simp⟩⟩

/-- C9: the Deposit and Timelock steps quantify over every entry of the
caller-supplied `InputSet` map, not only over entries referenced by the
transaction's inputs: adding one fresh, well-formed entry with a deposit
that is non-zero modulo `2 ^ 64` turns a transaction that passes the
Deposit step into one rejected with `InputOutputSumMismatch` (the entry is
nowhere referenced — the step never consults the transaction's inputs),
and any entry carrying an unexpired timelock block makes the Timelock step
fail. -/
theorem claim_C9_inputset_scope (svCtx : SemanticValidationContext)
    (k : OutputID) (o : Output)
    (hpass : TxSemanticDeposit svCtx = .ok ())
    (_hfresh : alookup svCtx.WorkingSet.InputSet k = none)
    (hdep : o.deposit % 2 ^ 64 ≠ 0)
    (hentry : entryOk o = true) :
    (∃ a b, TxSemanticDeposit (withInputEntry svCtx k o) =
      .error (.inputOutputSumMismatch a b)) ∧
    (∀ p ∈ svCtx.WorkingSet.InputSet, ∀ blocks, p.2.featureBlockList = some blocks →
      ∀ b ∈ blocks,
        TimelockViolation svCtx.ConfirmingMilestoneIndex svCtx.ConfirmingMilestoneUnix b →
        TxSemanticTimelock svCtx ≠ .ok ()) := by
  constructor
  · -- the input-side sum ranges over the whole map, so the fresh entry shifts it
    have hIn : ∃ s rm, depositInputSide svCtx.WorkingSet.InputSet 0 [] = .ok (s, rm) := by
      cases hI : depositInputSide svCtx.WorkingSet.InputSet 0 [] with
      | error e =>
        unfold TxSemanticDeposit at hpass
        rw [hI] at hpass
        cases hpass
      | ok r =>
        obtain ⟨s0, rm0⟩ := r
        exact ⟨s0, rm0, rfl⟩
    obtain ⟨s, rm, hIn⟩ := hIn
    have hs : s = (svCtx.WorkingSet.InputSet.map (fun p => p.2.deposit)).sum % 2 ^ 64 := by
      have := depositInputSide_ok_sum svCtx.WorkingSet.InputSet s rm 0 [] (by norm_num) hIn
      simpa using this
    have hout : s = (depositOutputSide svCtx.WorkingSet.Tx.Essence.Outputs 0 []).1 := by
      by_contra hne
      rw [txSemanticDeposit_eq svCtx s rm hIn, if_pos hne] at hpass
      cases hpass
    have hallOld : ∀ p ∈ svCtx.WorkingSet.InputSet, entryOk p.2 = true :=
      depositInputSide_entries svCtx.WorkingSet.InputSet 0 [] (s, rm) hIn
    have hallNew : ∀ p ∈ (k, o) :: svCtx.WorkingSet.InputSet, entryOk p.2 = true := by
      intro p hp
      rcases List.mem_cons.1 hp with hp | hp
      · rw [hp]; exact hentry
      · exact hallOld p hp
    obtain ⟨s', rm', hIn'⟩ := depositInputSide_ok_exists _ hallNew 0 []
    have hs' : s' = (o.deposit +
        (svCtx.WorkingSet.InputSet.map (fun p => p.2.deposit)).sum) % 2 ^ 64 := by
      have := depositInputSide_ok_sum ((k, o) :: svCtx.WorkingSet.InputSet) s' rm'
        0 [] (by norm_num) hIn'
      simpa using this
    have hne' : s' ≠ s := by
      rw [hs, hs']
      intro hcontra
      have hmod : o.deposit % 2 ^ 64 = 0 % 2 ^ 64 := by
        have hme : Nat.ModEq (2 ^ 64)
            (o.deposit + (svCtx.WorkingSet.InputSet.map (fun p => p.2.deposit)).sum)
            (0 + (svCtx.WorkingSet.InputSet.map (fun p => p.2.deposit)).sum) := by
          unfold Nat.ModEq
          simpa using hcontra
        exact Nat.ModEq.add_right_cancel' _ hme
      simp at hmod
      exact hdep hmod
    refine ⟨s', (depositOutputSide svCtx.WorkingSet.Tx.Essence.Outputs 0 []).1, ?_⟩
    have heq := txSemanticDeposit_eq (withInputEntry svCtx k o) s' rm' hIn'
    have houts : (withInputEntry svCtx k o).WorkingSet.Tx.Essence.Outputs =
        svCtx.WorkingSet.Tx.Essence.Outputs := rfl
    rw [houts] at heq
    rw [heq, if_pos (by rw [← hout]; exact hne')]
  · intro p hp blocks hblocks b hb hviol hok
    unfold TxSemanticTimelock at hok
    have hall := (timelockInputsCheck_ok_iff _ _ _).1 hok p hp blocks hblocks
    rw [List.all_eq_true] at hall
    have hbt := hall b hb
    rw [timelockViolation_iff] at hviol
    rw [hviol] at hbt
    cases hbt

/-- C9 witness: adding the unreferenced entry `(2,0) ↦ Simple(3)` to the
balanced one-in-one-out context flips the Deposit step to
`InputOutputSumMismatch`. -/
theorem claim_C9_inputset_scope_witness :
    TxSemanticDeposit balancedCtx = .ok () ∧
    (∃ a b, TxSemanticDeposit
      (withInputEntry balancedCtx { txID := 2, index := 0 } (.simple (.ed25519 9) 3)) =
      .error (.inputOutputSumMismatch a b)) :=
  ⟨rfl, (claim_C9_inputset_scope balancedCtx { txID := 2, index := 0 }
    (.simple (.ed25519 9) 3) rfl rfl (by decide) rfl).1⟩

/-- C5: for an alias input, the target identity is resolved from the
output's own alias id — or, when that id is zeroed, from the id derived
from the referenced output id — and it is the `StateController` by default
but the `GovernanceController` exactly when the resolved id has no chain on
the output side (destruction) or the output-side alias carries the same
state index (governance transition). -/
theorem claim_C5_alias_ident (svCtx : SemanticValidationContext) (a : AliasData)
    (i : Nat) (ref : OutputID)
    (href : svCtx.WorkingSet.Tx.Essence.Inputs.get? i = some ref) :
    ∃ ident, identToUnlockFromMultiIdentOutput svCtx a i = .ok ident ∧
      (alookup svCtx.WorkingSet.OutChainsAlias
          (if a.aliasID = 0 then AliasIDFromOutputID ref else a.aliasID) = none →
        ident = a.governanceController) ∧
      (∀ outAlias, alookup svCtx.WorkingSet.OutChainsAlias
          (if a.aliasID = 0 then AliasIDFromOutputID ref else a.aliasID) = some outAlias →
        (a.stateIndex = outAlias.stateIndex → ident = a.governanceController) ∧
        (a.stateIndex ≠ outAlias.stateIndex → ident = a.stateController)) := by
  have hres : identToUnlockFromMultiIdentOutput svCtx a i =
      .ok (aliasIdentFor svCtx a
        (if a.aliasID = 0 then AliasIDFromOutputID ref else a.aliasID)) := by
    unfold identToUnlockFromMultiIdentOutput
    by_cases hz : a.aliasID = 0
    · rw [if_pos hz, if_pos hz, href]
    · rw [if_neg hz, if_neg hz]
  refine ⟨_, hres, ?_, ?_⟩
  · intro hnone
    unfold aliasIdentFor
    rw [hnone]
  · intro outAlias hsome
    unfold aliasIdentFor
    rw [hsome]
    constructor
    · intro heq
      dsimp only
      rw [if_pos heq]
    · intro hne
      dsimp only
      rw [if_neg hne]

/-- C5 witness: the alias chain `3` transitions with a bumped state index,
so the state controller is the identity to unlock. -/
theorem claim_C5_alias_ident_witness :
    aliasCtx.WorkingSet.Tx.Essence.Inputs.get? 0 = some { txID := 1, index := 0 } ∧
    ∃ ident, identToUnlockFromMultiIdentOutput aliasCtx aliasWitnessData 0 = .ok ident :=
  ⟨rfl, Exists.elim
    (claim_C5_alias_ident aliasCtx aliasWitnessData 0 { txID := 1, index := 0 } rfl)
    (fun ident h => ⟨ident, h.1⟩)⟩

/-- C6: for an input output carrying an expiration feature block together
with a sender block (and duplicate-free block kinds), the override computed
by `checkSenderFeatureBlockIdentUnlock` is exactly the sender address when
the expiration is past relative to the confirmation context — both
conditions conjoined when both expiration kinds are present — and no
override otherwise, leaving the target identity unchanged. -/
theorem claim_C6_expiration_override (svCtx : SemanticValidationContext)
    (output : Output) (blocks : List FeatureBlock) (sender : Address)
    (hfb : output.featureBlockList = some blocks)
    (hnd : (blocks.map FeatureBlock.kind).Nodup)
    (hsender : findSenderAddress blocks = some sender)
    (hexp : findExpMsIndex blocks ≠ none ∨ findExpUnix blocks ≠ none) :
    checkSenderFeatureBlockIdentUnlock svCtx output =
      .ok (if expirationPast svCtx.ConfirmingMilestoneIndex
             svCtx.ConfirmingMilestoneUnix blocks
           then some sender else none) := by
  have hset : featureBlockSet blocks = .ok blocks := by
    unfold featureBlockSet
    rw [if_pos hnd]
  unfold checkSenderFeatureBlockIdentUnlock
  rw [hfb]
  dsimp only
  rw [hset]
  dsimp only
  unfold expirationPast
  cases hmi : findExpMsIndex blocks with
  | none =>
    cases hux : findExpUnix blocks with
    | none =>
      exfalso
      rcases hexp with hc | hc
      · exact hc hmi
      · exact hc hux
    | some ts =>
      dsimp only
      rw [hsender]
      dsimp only
      by_cases hle : ts ≤ svCtx.ConfirmingMilestoneUnix
      · simp [hle]
      · simp [hle]
  | some idx =>
    cases hux : findExpUnix blocks with
    | none =>
      dsimp only
      rw [hsender]
      dsimp only
      by_cases hle : idx ≤ svCtx.ConfirmingMilestoneIndex
      · simp [hle]
      · simp [hle]
    | some ts =>
      dsimp only
      rw [hsender]
      dsimp only
      by_cases hle1 : idx ≤ svCtx.ConfirmingMilestoneIndex
      · by_cases hle2 : ts ≤ svCtx.ConfirmingMilestoneUnix
        · simp [hle1, hle2]
        · simp [hle1, hle2]
      · by_cases hle2 : ts ≤ svCtx.ConfirmingMilestoneUnix
        · simp [hle1, hle2]
        · simp [hle1, hle2]

/-- C6 witness: with a unix expiration of `1000` and a confirming timestamp
of exactly `1000`, the target identity is overridden to the sender. -/
theorem claim_C6_expiration_override_witness :
    expirationOutput.featureBlockList =
      some [.sender (.ed25519 2), .expirationUnix 1000] ∧
    checkSenderFeatureBlockIdentUnlock expirationCtx expirationOutput =
      .ok (some (.ed25519 2)) :=
  ⟨rfl, claim_C6_expiration_override expirationCtx expirationOutput
    [.sender (.ed25519 2), .expirationUnix 1000] (.ed25519 2)
    rfl (by decide) rfl (Or.inr (by decide))⟩

/-- C7: during unlock resolution, for an input whose resolved target
identity is a direct-unlockable (Ed25519) address paired with a signature
unlock block: the unlock fails with `InvalidInputUnlock` when the identity
is already present in `UnlockedIdents`; otherwise the identity's `Unlock`
capability is invoked on the essence signing message and the block's
signature — on success the identity is inserted into `UnlockedIdents` at
the current input index, on failure the signature error is surfaced. -/
theorem claim_C7_signature_unlock (verify : SigVerifier)
    (svCtx : SemanticValidationContext) (output : Output) (inputIndex : Nat)
    (t0 : Address) (ov : Option Address) (pubKey sig k : Nat)
    (h1 : identToUnlock svCtx output inputIndex = .ok t0)
    (h2 : checkSenderFeatureBlockIdentUnlock svCtx output = .ok ov)
    (h3 : svCtx.WorkingSet.Tx.UnlockBlocks.get? inputIndex =
      some (.signature pubKey sig))
    (h4 : ov.getD t0 = .ed25519 k) :
    (∀ j, alookup svCtx.WorkingSet.UnlockedIdents (ov.getD t0) = some j →
      unlockOutput verify svCtx output inputIndex = .error .invalidInputUnlock) ∧
    (alookup svCtx.WorkingSet.UnlockedIdents (ov.getD t0) = none →
      (verify (ov.getD t0) svCtx.WorkingSet.EssenceMsgToSign pubKey sig = true →
        unlockOutput verify svCtx output inputIndex =
          .ok (ainsert svCtx.WorkingSet.UnlockedIdents (ov.getD t0)
            (inputIndex % 2 ^ 16))) ∧
      (verify (ov.getD t0) svCtx.WorkingSet.EssenceMsgToSign pubKey sig = false →
        unlockOutput verify svCtx output inputIndex = .error .signatureFailed)) := by
  have hcc : (ov.getD t0).isChainConstrained = false := by
    rw [h4]
    rfl
  have hbase : unlockOutput verify svCtx output inputIndex =
      (match alookup svCtx.WorkingSet.UnlockedIdents (ov.getD t0) with
       | some _ => .error .invalidInputUnlock
       | none =>
         if verify (ov.getD t0) svCtx.WorkingSet.EssenceMsgToSign pubKey sig then
           .ok (ainsert svCtx.WorkingSet.UnlockedIdents (ov.getD t0)
             (inputIndex % 2 ^ 16))
         else .error .signatureFailed) := by
    unfold unlockOutput
    rw [h1]
    dsimp only
    rw [h2]
    dsimp only
    rw [h3]
    dsimp only
    rw [hcc]
    exact if_neg (by simp)
  refine ⟨?_, ?_⟩
  · intro j hj
    rw [hbase, hj]
  · intro hnone
    refine ⟨?_, ?_⟩
    · intro hv
      rw [hbase, hnone]
      dsimp only
      rw [hv]
      rfl
    · intro hv
      rw [hbase, hnone]
      dsimp only
      rw [hv]
      rfl

/-- C7 witness: a fresh Ed25519 identity with an accepting verifier is
unlocked and recorded at input index `0`. -/
theorem claim_C7_signature_unlock_witness :
    identToUnlock sigCtx (.simple (.ed25519 1) 5) 0 = .ok (.ed25519 1) ∧
    unlockOutput acceptAll sigCtx (.simple (.ed25519 1) 5) 0 =
      .ok [(.ed25519 1, 0)] :=
  ⟨rfl, by
    have h := ((claim_C7_signature_unlock acceptAll sigCtx (.simple (.ed25519 1) 5) 0
      (.ed25519 1) none 42 43 1 rfl rfl rfl rfl).2 rfl).1 rfl
    simpa using h⟩

/-- C10: `Transaction.ID` and `Transaction.OutputsSet` succeed on every
transaction of the model — the id is computed from the `NoValidation`
serialization, which skips `SyntacticallyValidate` and all array-bound
checks, so no syntactic defect (zero inputs, more than 127 outputs, a
mismatching unlock count) can make them fail. -/
theorem claim_C10_id_total (hash : List Nat → Nat) (t : Transaction) :
    ∃ txID, t.ID hash = .ok txID ∧
      t.OutputsSet hash = .ok (t.Essence.Outputs.enum.map
        (fun p => (OutputIDFromTransactionIDAndIndex txID (p.1 % 2 ^ 16), p.2))) := by
  refine ⟨hash (u32le PayloadTransaction ++ encodeEssence t.Essence ++
    u16le t.UnlockBlocks.length ++ (t.UnlockBlocks.map encodeUnlockBlock).flatten),
    ?_, ?_⟩ <;>
    simp [Transaction.ID, Transaction.OutputsSet, Transaction.Serialize,
      TransactionEssence.Serialize]

end Iota
